import Mathlib

/-!
Verification of the Cannes festival dashboard data pipeline (`app.py`).

The pipeline parses a free-text comma-separated `countries` field per record,
builds a country vocabulary and per-country boolean membership flags, filters
records by year range and section, and aggregates counts, percentages,
co-production means and producer rankings.  All definitions below are shallow
embeddings of the corresponding Python functions and dataframe expressions.
-/

namespace Cannes

/-- Whitespace test used by Python `str.strip`. -/
def isPySpace (c : Char) : Bool := c.isWhitespace

/-- Embedding of Python `str.strip` on an explicit character list: drop
whitespace from both ends. -/
def trimChars (l : List Char) : List Char :=
  ((l.dropWhile isPySpace).reverse.dropWhile isPySpace).reverse

/-- Auxiliary accumulator loop for `splitComma`. -/
def splitCommaAux : List Char → List Char → List (List Char)
  | [], acc => [acc.reverse]
  | c :: cs, acc =>
    if c = ',' then acc.reverse :: splitCommaAux cs []
    else splitCommaAux cs (c :: acc)

/-- Embedding of Python `s.split(',')`: split on every comma, keeping empty
segments (so `"".split(',') = [""]`). -/
def splitComma (l : List Char) : List (List Char) := splitCommaAux l []

/-- Embedding of Python `str.title` (ASCII): the first alphabetic character of
each alphabetic run is uppercased, the rest lowercased.  The boolean argument
records whether the previous character was alphabetic. -/
def pyTitleAux : Bool → List Char → List Char
  | _, [] => []
  | prev, c :: cs =>
    if c.isAlpha then
      (if prev then c.toLower else c.toUpper) :: pyTitleAux true cs
    else
      c :: pyTitleAux false cs

/-- Python `s.title()` as a `String` function. -/
def pyTitle (s : String) : String := ⟨pyTitleAux false s.data⟩

/-- Python `s.strip()` as a `String` function. -/
def pyStrip (s : String) : String := ⟨trimChars s.data⟩

/-- Embedding of `get_countries_from_string` (app.py lines 24-28).  A missing
value (`pandas` NaN) is modelled as `none`.  The source returns `[]` for a
missing or blank-after-strip field, and otherwise strips, title-cases and keeps
the non-blank comma-separated tokens. -/
def get_countries_from_string (country_string : Option String) : List String :=
  match country_string with
  | none => []
  | some s =>
    if trimChars s.data = [] then []
    else ((splitComma s.data).filter (fun c => trimChars c ≠ [])).map
      (fun c => (⟨pyTitleAux false (trimChars c)⟩ : String))

/-- One festival entry, with the columns the claims touch.  Missing cell values
(`pandas` NaN) are modelled as `none`; `countries_for_analysis` is a copy of
`countries` (app.py line 57), so we use `countries` directly. -/
structure Record where
  title : String
  director : String
  year : Int
  countries : Option String
  «section» : Option String
  productoras : Option String
deriving DecidableEq, Repr

/-- All country tokens occurring in a dataset, in record order: the loop
`for countries in df[col].dropna(): all_countries.extend(get_countries_from_string(countries))`
shared by `unique_countries` (app.py lines 66-68) and `count_countries`
(lines 33-35).  `dropna` is the `filterMap` on the optional cell. -/
def all_tokens (ds : List Record) : List String :=
  (ds.filterMap (fun r => r.countries)).flatMap
    (fun s => get_countries_from_string (some s))

/-- Embedding of `unique_countries` (app.py lines 66-69): the set of distinct
parsed country names over the whole dataset, as a duplicate-free list. -/
def unique_countries (ds : List Record) : List String :=
  (all_tokens ds).dedup

/-- Embedding of the per-country membership column (app.py lines 74-77):
`1 if country in get_countries_from_string(x) else 0`. -/
def countryFlag (country : String) (r : Record) : Nat :=
  if country ∈ get_countries_from_string r.countries then 1 else 0

/-- Embedding of the `total_movies` column (app.py line 86):
`df[unique_countries].sum(axis=1)`, the row sum of all membership flags. -/
def total_movies (ds : List Record) (r : Record) : Nat :=
  ((unique_countries ds).map (fun c => countryFlag c r)).sum

/-- Embedding of `count_countries` evaluated at one country (app.py lines
31-36): the `Counter` built from the concatenated token lists, queried at `c`,
i.e. the number of occurrences of `c` among all tokens. -/
def count_countries (ds : List Record) (c : String) : Nat :=
  (all_tokens ds).count c

/-- Spec-side aggregate for the geographic view: the sum of the country's
boolean membership flag over all records (the spec's
"count total membership across all records per country (via the expander's
flags)").  Written from the spec's words, to be compared with
`count_countries`, which is what the code computes. -/
def flagSum (ds : List Record) (c : String) : Nat :=
  (ds.map (fun r => countryFlag c r)).sum

/-- Embedding of `df_counts` (app.py lines 214-220): one `(country, count)` row
per `Counter` key, sorted by count descending. -/
def df_counts (ds : List Record) : List (String × Nat) :=
  (((all_tokens ds).dedup).map (fun c => (c, count_countries ds c))).mergeSort
    (fun a b => decide (b.2 ≤ a.2))

/-- Embedding of the top-15 subset `df_counts.head(15)` (app.py line 228). -/
def top15 (ds : List Record) : List (String × Nat) :=
  (df_counts ds).take 15

/-- Embedding of the `num_countries` column (app.py lines 254-256):
`0 if pd.isna(x) else len(get_countries_from_string(x))`. -/
def num_countries (r : Record) : Nat :=
  match r.countries with
  | none => 0
  | some s => (get_countries_from_string (some s)).length

/-- Embedding of the `has_country_data` column (app.py line 258):
`notna(x) and x != ""`. -/
def has_country_data (r : Record) : Bool :=
  match r.countries with
  | none => false
  | some s => s ≠ ""

/-- The rows over which app.py line 262 computes the per-year co-production
mean: records with `has_country_data` set, grouped at year `y`. -/
def coprodMeanRows (ds : List Record) (y : Int) : List Record :=
  (ds.filter (fun r => has_country_data r)).filter (fun r => r.year = y)

/-- Embedding of the co-production mean at app.py line 262:
`filtered_df[filtered_df['has_country_data']].groupby('year')['num_countries'].mean()`
evaluated at year `y` (rational-valued mean). -/
def avg_countries_262 (ds : List Record) (y : Int) : ℚ :=
  let rows := coprodMeanRows ds y
  ((rows.map (fun r => (num_countries r : ℚ))).sum) / (rows.length : ℚ)

/-- Embedding of the co-production mean at app.py line 295, the one that is
actually plotted: `filtered_df.groupby('year')['num_countries'].mean()`
evaluated at year `y`, with no `has_country_data` restriction. -/
def avg_countries_295 (ds : List Record) (y : Int) : ℚ :=
  let rows := ds.filter (fun r => r.year = y)
  ((rows.map (fun r => (num_countries r : ℚ))).sum) / (rows.length : ℚ)

/-- The filter specification of the sidebar: year range, section selection
(sentinel `"Todas"` meaning no restriction) and the selected-country subset. -/
structure FilterSpec where
  yearMin : Int
  yearMax : Int
  «section» : String
  countrySubset : List String
deriving DecidableEq, Repr

/-- Embedding of `filtered_df` (app.py lines 135-139): keep records inside the
year range, then, when a specific section is selected, keep records whose
section cell equals it.  The country subset plays no role here, exactly as in
the source. -/
def filtered_df (ds : List Record) (fs : FilterSpec) : List Record :=
  if fs.«section» = "Todas" then
    ds.filter (fun r => decide (fs.yearMin ≤ r.year) && decide (r.year ≤ fs.yearMax))
  else
    (ds.filter
      (fun r => decide (fs.yearMin ≤ r.year) && decide (r.year ≤ fs.yearMax))).filter
      (fun r => r.«section» = some fs.«section»)

/-- Per-year flag sum for one country: `filtered_df.groupby("year")[c].sum()`
evaluated at year `y` (app.py line 155, one cell of `df_line`). -/
def flagSumYear (ds : List Record) (y : Int) (c : String) : Nat :=
  ((ds.filter (fun r => r.year = y)).map (fun r => countryFlag c r)).sum

/-- Embedding of `row_sums` (app.py line 177): the year-`y` row total over the
selected countries. -/
def rowSum (ds : List Record) (y : Int) (sel : List String) : Nat :=
  (sel.map (fun c => flagSumYear ds y c)).sum

/-- Embedding of one cell of `df_percent` (app.py lines 178-179):
`df_percent[country] / row_sums * 100`, with the counts as rationals. -/
def df_percent (ds : List Record) (y : Int) (sel : List String) (c : String) : ℚ :=
  (flagSumYear ds y c : ℚ) / (rowSum ds y sel : ℚ) * 100

/-- Embedding of the `productoras_lista` column (app.py lines 316-318):
`[] if pd.isna(x) else [p.strip() for p in str(x).split(',')]`.  Note the
source keeps empty tokens here, unlike the country parser. -/
def productoras_lista (x : Option String) : List String :=
  match x with
  | none => []
  | some s => (splitComma s.data).map (fun t => (⟨trimChars t⟩ : String))

/-- Embedding of Python `Counter(l).most_common(n)`: pairs of distinct element
and occurrence count, sorted by count descending (stably), first `n` kept. -/
def most_common (l : List String) (n : Nat) : List (String × Nat) :=
  ((l.dedup.map (fun k => (k, l.count k))).mergeSort
    (fun a b => decide (b.2 ≤ a.2))).take n

/-- Embedding of `get_top_productoras` (app.py lines 321-329): restrict to
records whose membership flag for `country_column` is 1, concatenate their
producer lists, count and return the `n` most common.  As in the source, the
`country_value` argument is accepted but unused (`== 1` is hardcoded at
line 322). -/
def get_top_productoras (df : List Record) (country_column : String)
    (country_value : Nat) (n : Nat) : List (String × Nat) :=
  let country_movies := df.filter (fun r => countryFlag country_column r = 1)
  let all_productoras := country_movies.flatMap
    (fun r => productoras_lista r.productoras)
  most_common all_productoras n

/-- The two optional producer source columns of the loaded spreadsheet, each
either absent or a list of (possibly missing) cell values. -/
structure DataFrameCols where
  productoras_normalizadas : Option (List (Option String))
  productoras_consolidadas : Option (List (Option String))
deriving DecidableEq, Repr

/-- Embedding of the producer-column adaptation (app.py lines 89-92): prefer
`productoras_normalizadas` when present, else `productoras_consolidadas`,
else no normalized column is created. -/
def productoras_consolidadas_normalized (d : DataFrameCols) : Option (List (Option String)) :=
  match d.productoras_normalizadas with
  | some v => some v
  | none => d.productoras_consolidadas

/-- Outcome of the producers tab (app.py lines 314-372): a ranking, the
"no data for this country" info message, or the "column missing" warning. -/
inductive Tab3Outcome where
  | ranking : List (String × Nat) → Tab3Outcome
  | noDataInfo : Tab3Outcome
  | noColumnWarning : Tab3Outcome
deriving DecidableEq, Repr

/-- Embedding of the control flow of the producers tab (app.py lines 314-372):
if the normalized producer column is absent, warn; otherwise rank via
`get_top_productoras(filtered_df, selected_country, 1)` (n defaulting to 10)
and show an info message when the ranking is empty. -/
def tab3 (hasProducerColumn : Bool) (rows : List Record) (country : String) :
    Tab3Outcome :=
  if hasProducerColumn then
    let tp := get_top_productoras rows country 1 10
    if tp = [] then Tab3Outcome.noDataInfo else Tab3Outcome.ranking tp
  else Tab3Outcome.noColumnWarning

/-- A string made only of whitespace and commas (the shape of countries field
claim C10 is about). -/
def blankish (s : String) : Bool :=
  s.data.all (fun c => c.isWhitespace || c = ',')

/-- The country parser as the specification words it: split the field on
commas, trim each token, discard tokens that are empty after trimming,
title-case the remaining tokens; a blank or absent field maps to the empty
list.  Written from the spec sentence, to be compared with
`get_countries_from_string`. -/
def parseCountriesSpec : Option String → List String
  | none => []
  | some s =>
    (((splitComma s.data).map trimChars).filter (fun t => t ≠ [])).map
      (fun t => (⟨pyTitleAux false t⟩ : String))

/-! ### Concrete datasets used as counterexamples and witnesses -/

/-- Two records in 2020: one with a single country, one with a missing
countries field.  Exhibits the divergence between the two co-production
means (claim C1). -/
def C1ds : List Record :=
  [⟨"A", "D", 2020, some "France", none, none⟩,
   ⟨"B", "D", 2020, none, none, none⟩]

/-- A record whose countries field repeats one token. -/
def dupRecord : Record := ⟨"A", "D", 2020, some "France, France", none, none⟩

/-- A one-record dataset with a duplicated country token (claims C2, C3). -/
def dupDs : List Record := [dupRecord]

/-- Two 2020 records over two countries, for the percentage-share witness
(claim C7). -/
def C7ds : List Record :=
  [⟨"A", "D", 2020, some "France, Usa", none, none⟩,
   ⟨"B", "D", 2020, some "France", none, none⟩]

/-- One French record with a producer, used to query a country with no
matching records (claim C8). -/
def C8ds : List Record := [⟨"A", "D", 2020, some "France", none, some "Gaumont"⟩]

/-- A record whose countries field holds only whitespace and a comma
(claim C10). -/
def blankRecord : Record := ⟨"B", "D", 2020, some " , ", none, none⟩

/-- A dataset containing `blankRecord` together with a normal record
(claim C10). -/
def C10ds : List Record :=
  [⟨"A", "D", 2020, some "France", none, none⟩, blankRecord]

/-! ### Helper lemmas -/

lemma forall_mem_dropWhile_iff {α : Type} {p : α → Bool} {l : List α} :
    (∀ x ∈ l.dropWhile p, p x) ↔ ∀ x ∈ l, p x := by
  induction l with
  | nil => simp
  | cons a as ih =>
    by_cases hp : p a
    · rw [List.dropWhile_cons_of_pos hp]
      constructor
      · intro h x hx
        rcases List.mem_cons.mp hx with rfl | hx
        · exact hp
        · exact (ih.mp h) x hx
      · intro h x hx
        exact ih.mpr (fun y hy => h y (List.mem_cons_of_mem _ hy)) x hx
    · rw [List.dropWhile_cons_of_neg hp]

lemma trimChars_eq_nil_iff {l : List Char} :
    trimChars l = [] ↔ ∀ c ∈ l, isPySpace c := by
  unfold trimChars
  rw [List.reverse_eq_nil_iff, List.dropWhile_eq_nil_iff]
  constructor
  · intro h
    apply forall_mem_dropWhile_iff.mp
    intro x hx
    exact h x (List.mem_reverse.mpr hx)
  · intro h x hx
    exact h x ((List.dropWhile_sublist isPySpace).subset (List.mem_reverse.mp hx))

lemma splitCommaAux_no_comma {l acc : List Char} (h : ∀ c ∈ l, c ≠ ',') :
    splitCommaAux l acc = [acc.reverse ++ l] := by
  induction l generalizing acc with
  | nil => simp [splitCommaAux]
  | cons c cs ih =>
    have hc : c ≠ ',' := h c (List.mem_cons_self _ _)
    simp only [splitCommaAux, if_neg hc]
    rw [ih (fun x hx => h x (List.mem_cons_of_mem _ hx))]
    simp

lemma splitComma_no_comma {l : List Char} (h : ∀ c ∈ l, c ≠ ',') :
    splitComma l = [l] := by
  unfold splitComma
  rw [splitCommaAux_no_comma h]
  simp

lemma get_countries_some (s : String) :
    get_countries_from_string (some s) =
      if trimChars s.data = [] then []
      else ((splitComma s.data).filter (fun c => trimChars c ≠ [])).map
        (fun c => (⟨pyTitleAux false (trimChars c)⟩ : String)) := rfl

lemma parseCountriesSpec_some (s : String) :
    parseCountriesSpec (some s) =
      (((splitComma s.data).map trimChars).filter (fun t => t ≠ [])).map
        (fun t => (⟨pyTitleAux false t⟩ : String)) := rfl

lemma mem_all_tokens {ds : List Record} {c : String} :
    c ∈ all_tokens ds ↔ ∃ r ∈ ds, c ∈ get_countries_from_string r.countries := by
  unfold all_tokens
  simp only [List.mem_flatMap, List.mem_filterMap]
  constructor
  · rintro ⟨s, ⟨r, hr, hrs⟩, hc⟩
    exact ⟨r, hr, by rw [hrs]; exact hc⟩
  · rintro ⟨r, hr, hc⟩
    cases hcs : r.countries with
    | none =>
      rw [hcs] at hc
      exact absurd hc (by simp [get_countries_from_string])
    | some s =>
      exact ⟨s, ⟨r, hr, hcs⟩, by rw [hcs] at hc; exact hc⟩

lemma sum_map_flag (l m : List String) :
    (l.map (fun c => if c ∈ m then 1 else 0)).sum
      = (l.filter (fun c => decide (c ∈ m))).length := by
  induction l with
  | nil => rfl
  | cons a l ih =>
    simp only [List.map_cons, List.sum_cons, List.filter_cons, ih]
    by_cases ha : a ∈ m
    · simp [ha]
      omega
    · simp [ha]

lemma total_movies_eq_dedup_length {ds : List Record} {r : Record} (h : r ∈ ds) :
    total_movies ds r = (get_countries_from_string r.countries).dedup.length := by
  have hsub : ∀ x ∈ get_countries_from_string r.countries, x ∈ unique_countries ds := by
    intro x hx
    rw [unique_countries, List.mem_dedup]
    exact mem_all_tokens.mpr ⟨r, h, hx⟩
  unfold total_movies countryFlag
  rw [sum_map_flag]
  have h1 : List.Nodup ((unique_countries ds).filter
      (fun c => decide (c ∈ get_countries_from_string r.countries))) :=
    List.Nodup.filter _ (List.nodup_dedup _)
  have h2 : List.Nodup ((get_countries_from_string r.countries).dedup) :=
    List.nodup_dedup _
  have hperm : List.Perm
      ((unique_countries ds).filter
        (fun c => decide (c ∈ get_countries_from_string r.countries)))
      ((get_countries_from_string r.countries).dedup) := by
    rw [List.perm_ext_iff_of_nodup h1 h2]
    intro a
    simp only [List.mem_filter, List.mem_dedup, decide_eq_true_eq]
    constructor
    · rintro ⟨_, ha⟩
      exact ha
    · intro ha
      exact ⟨hsub a ha, ha⟩
  exact hperm.length_eq

lemma count_all_tokens (ds : List Record) (c : String) :
    (all_tokens ds).count c
      = (ds.map (fun r => (get_countries_from_string r.countries).count c)).sum := by
  induction ds with
  | nil => rfl
  | cons r rs ih =>
    unfold all_tokens at ih ⊢
    cases hc : r.countries with
    | none =>
      simp only [List.filterMap_cons, hc, List.map_cons, List.sum_cons, ih]
      simp [get_countries_from_string]
    | some s =>
      simp only [List.filterMap_cons, hc, List.flatMap_cons, List.count_append,
        List.map_cons, List.sum_cons, ih]

/-! ### Claim theorems -/

/-- Claim C4: parsing a record's countries field splits on commas, trims each
token, discards tokens empty after trimming, title-cases the rest, and maps a
blank or absent field to the empty list, never failing: the code's
`get_countries_from_string` coincides with the spec's parsing pipeline on
every input. -/
theorem countries_parsing_matches_spec (os : Option String) :
    get_countries_from_string os = parseCountriesSpec os := by
  cases os with
  | none => rfl
  | some s =>
    rw [get_countries_some, parseCountriesSpec_some]
    by_cases hblank : trimChars s.data = []
    · rw [if_pos hblank]
      have hws : ∀ c ∈ s.data, isPySpace c := trimChars_eq_nil_iff.mp hblank
      have hnc : ∀ c ∈ s.data, c ≠ ',' := by
        intro c hc hcomma
        have := hws c hc
        rw [hcomma] at this
        simp [isPySpace, Char.isWhitespace] at this
      rw [splitComma_no_comma hnc]
      simp [hblank]
    · rw [if_neg hblank, List.filter_map, List.map_map]
      rfl

/-- Claim C2 counterexample: for the record with countries field
`"France, France"`, the per-record count `num_countries` is 2 while the set of
distinct normalized country names has size 1, so not every per-record count
the program derives collapses duplicate tokens. -/
theorem num_countries_counts_duplicates :
    num_countries dupRecord = 2
    ∧ (get_countries_from_string dupRecord.countries).dedup.length = 1
    ∧ num_countries dupRecord
        ≠ (get_countries_from_string dupRecord.countries).dedup.length := by
  decide

/-- Claim C2 amended: for every record of the dataset, the flag-sum column
`total_movies` equals the size of the record's set of distinct normalized
country names (duplicate tokens count once there), while the `num_countries`
column is the raw parsed token-list length, in which duplicate tokens count
multiply. -/
theorem per_record_counts (ds : List Record) (r : Record) (h : r ∈ ds) :
    total_movies ds r = (get_countries_from_string r.countries).dedup.length
    ∧ num_countries r = (get_countries_from_string r.countries).length := by
  refine ⟨total_movies_eq_dedup_length h, ?_⟩
  cases r with
  | mk title director year countries sec productoras =>
    cases countries with
    | none => rfl
    | some s => rfl

/-- Claim C2 witness: `per_record_counts` applied to the duplicated-token
record inside its one-record dataset. -/
theorem per_record_counts_witness :
    dupRecord ∈ dupDs
    ∧ (total_movies dupDs dupRecord
          = (get_countries_from_string dupRecord.countries).dedup.length
        ∧ num_countries dupRecord
          = (get_countries_from_string dupRecord.countries).length) :=
  ⟨by decide, per_record_counts dupDs dupRecord (by decide)⟩

/-- Claim C3 counterexample: on the one-record dataset whose countries field is
`"France, France"`, the geographic aggregator counts France twice while the sum
of the boolean membership flags is 1, so the aggregator's count is not the
flag sum. -/
theorem geo_count_ne_flag_sum :
    count_countries dupDs "France" = 2
    ∧ flagSum dupDs "France" = 1
    ∧ count_countries dupDs "France" ≠ flagSum dupDs "France" := by
  decide

/-- Claim C3 amended: the geographic aggregator's count for a country is the
total number of occurrences of that country across the filtered records'
parsed token lists (a duplicated token inside one record contributes each
occurrence), the ranking rows carry exactly these counts sorted descending,
and the exposed top-15 subset is the first fifteen rows of the ranking. -/
theorem geo_ranking_shape (ds : List Record) (c : String) :
    count_countries ds c
        = (ds.map (fun r => (get_countries_from_string r.countries).count c)).sum
    ∧ List.Pairwise (fun a b => b.2 ≤ a.2) (df_counts ds)
    ∧ (∀ p ∈ df_counts ds, p.2 = count_countries ds p.1)
    ∧ top15 ds = (df_counts ds).take 15 := by
  refine ⟨count_all_tokens ds c, ?_, ?_, rfl⟩
  · have hs := @List.sorted_mergeSort (String × Nat)
      (fun a b => decide (b.2 ≤ a.2))
      (fun a b c hab hbc => by
        simp only [decide_eq_true_eq] at hab hbc ⊢
        omega)
      (fun a b => by
        simp only [Bool.or_eq_true, decide_eq_true_eq]
        omega)
      (((all_tokens ds).dedup).map (fun c => (c, count_countries ds c)))
    exact hs.imp (fun hab => of_decide_eq_true hab)
  · intro p hp
    have hmem := (List.mergeSort_perm _ _).mem_iff.mp hp
    rcases List.mem_map.mp hmem with ⟨a, _, rfl⟩
    rfl

/-- Claim C5: the country vocabulary built at load time is exactly the union
of the per-record parsed country sets: a country is in `unique_countries` iff
some record's parsed countries list contains it. -/
theorem vocabulary_is_union_of_record_sets (ds : List Record) (c : String) :
    c ∈ unique_countries ds ↔ ∃ r ∈ ds, c ∈ get_countries_from_string r.countries := by
  rw [unique_countries, List.mem_dedup]
  exact mem_all_tokens

lemma avg_countries_295_eq_cast (ds : List Record) (y : Int) :
    avg_countries_295 ds y
      = ((((ds.filter (fun r => decide (r.year = y))).map num_countries).sum : ℚ))
        / (((ds.filter (fun r => decide (r.year = y))).length : ℚ)) := by
  unfold avg_countries_295
  rw [Nat.cast_list_sum, List.map_map]
  rfl

lemma avg_countries_262_eq_cast (ds : List Record) (y : Int) :
    avg_countries_262 ds y
      = ((((coprodMeanRows ds y).map num_countries).sum : ℚ))
        / (((coprodMeanRows ds y).length : ℚ)) := by
  unfold avg_countries_262
  rw [Nat.cast_list_sum, List.map_map]
  rfl

/-- Claim C1: the source computes the record-excluding mean (app.py line 262)
but then rebinds `avg_countries` to the unrestricted mean (line 295), which is
the one plotted.  On a 2020 dataset with one one-country record and one record
with no countries field, the plotted mean is 1/2 (the countryless record
counted as zero), while the mean over records with country data is 1. -/
theorem coproduction_mean_divergence :
    avg_countries_295 C1ds 2020 = 1/2
    ∧ avg_countries_262 C1ds 2020 = 1
    ∧ avg_countries_295 C1ds 2020 ≠ avg_countries_262 C1ds 2020 := by
  have e1 : avg_countries_295 C1ds 2020 = 1/2 := by
    rw [avg_countries_295_eq_cast]
    rw [show ((C1ds.filter (fun r => decide (r.year = 2020))).map num_countries).sum
        = 1 from by decide]
    rw [show (C1ds.filter (fun r => decide (r.year = 2020))).length = 2 from by decide]
    norm_num
  have e2 : avg_countries_262 C1ds 2020 = 1 := by
    rw [avg_countries_262_eq_cast]
    rw [show ((coprodMeanRows C1ds 2020).map num_countries).sum = 1 from by decide]
    rw [show (coprodMeanRows C1ds 2020).length = 1 from by decide]
    norm_num
  refine ⟨e1, e2, ?_⟩
  rw [e1, e2]
  norm_num

/-- Claim C6: the filter layer keeps exactly the records inside the year range
whose section matches the selection (with `"Todas"` meaning no restriction),
and the selected-country subset never changes the filtered record set. -/
theorem filter_layer_contract (ds : List Record) (fs : FilterSpec) :
    (∀ r, r ∈ filtered_df ds fs ↔
        r ∈ ds ∧ fs.yearMin ≤ r.year ∧ r.year ≤ fs.yearMax ∧
          (fs.«section» = "Todas" ∨ r.«section» = some fs.«section»))
    ∧ ∀ cs, filtered_df ds ⟨fs.yearMin, fs.yearMax, fs.«section», cs⟩
        = filtered_df ds fs := by
  constructor
  · intro r
    by_cases hs : fs.«section» = "Todas"
    · unfold filtered_df
      rw [if_pos hs]
      simp only [List.mem_filter, Bool.and_eq_true, decide_eq_true_eq, and_assoc]
      constructor
      · rintro ⟨hmem, h1, h2⟩
        exact ⟨hmem, h1, h2, Or.inl hs⟩
      · rintro ⟨hmem, h1, h2, _⟩
        exact ⟨hmem, h1, h2⟩
    · unfold filtered_df
      rw [if_neg hs]
      simp only [List.mem_filter, Bool.and_eq_true, decide_eq_true_eq, and_assoc]
      constructor
      · rintro ⟨hmem, h1, h2, h3⟩
        exact ⟨hmem, h1, h2, Or.inr h3⟩
      · rintro ⟨hmem, h1, h2, h3 | h3⟩
        · exact absurd h3 hs
        · exact ⟨hmem, h1, h2, h3⟩
  · intro cs
    rfl

lemma sum_map_mul_right (l : List String) (f : String → ℚ) (k : ℚ) :
    (l.map (fun c => f c * k)).sum = (l.map f).sum * k := by
  induction l with
  | nil => simp
  | cons a t ih => simp [ih, add_mul]

/-- Claim C7: for any year whose selected countries have a nonzero total
count, the percentage shares of the selected countries sum to exactly 100
(exact in rational arithmetic, hence within floating-point tolerance in the
source). -/
theorem percent_shares_sum_to_100 (ds : List Record) (y : Int) (sel : List String)
    (h : rowSum ds y sel ≠ 0) :
    (sel.map (fun c => df_percent ds y sel c)).sum = 100 := by
  have hT : ((rowSum ds y sel : ℚ)) ≠ 0 := Nat.cast_ne_zero.mpr h
  unfold df_percent
  have hfun : (fun c => (flagSumYear ds y c : ℚ) / (rowSum ds y sel : ℚ) * 100)
      = fun c => (flagSumYear ds y c : ℚ) * (100 / (rowSum ds y sel : ℚ)) := by
    funext c
    field_simp
  rw [hfun, sum_map_mul_right]
  have hsum : (sel.map (fun c => ((flagSumYear ds y c : ℚ)))).sum
      = ((rowSum ds y sel : ℚ)) := by
    rw [rowSum, Nat.cast_list_sum, List.map_map]
    rfl
  rw [hsum]
  field_simp

/-- Claim C7 witness: `percent_shares_sum_to_100` on two 2020 records over
France and Usa, where the year's row total is 3. -/
theorem percent_shares_sum_to_100_witness :
    rowSum C7ds 2020 ["France", "Usa"] ≠ 0
    ∧ ((["France", "Usa"] : List String).map
        (fun c => df_percent C7ds 2020 ["France", "Usa"] c)).sum = 100 :=
  ⟨by decide, percent_shares_sum_to_100 C7ds 2020 ["France", "Usa"] (by decide)⟩

/-- Claim C8: when no record has the selected country's membership flag set,
or every record that has it carries no producer data, the producer ranking is
the empty list rather than an error. -/
theorem empty_producer_ranking (df : List Record) (c : String) (v n : Nat)
    (h : (∀ r ∈ df, countryFlag c r = 0)
       ∨ (∀ r ∈ df, countryFlag c r = 1 → r.productoras = none)) :
    get_top_productoras df c v n = [] := by
  unfold get_top_productoras
  have hflat : (df.filter (fun r => decide (countryFlag c r = 1))).flatMap
      (fun r => productoras_lista r.productoras) = [] := by
    rw [List.flatMap_eq_nil_iff]
    intro r hr
    have hmem := List.mem_filter.mp hr
    have hflag : countryFlag c r = 1 := of_decide_eq_true hmem.2
    rcases h with h | h
    · exact absurd hflag (by rw [h r hmem.1]; decide)
    · rw [h r hmem.1 hflag]
      rfl
  show most_common ((df.filter (fun r => decide (countryFlag c r = 1))).flatMap
    (fun r => productoras_lista r.productoras)) n = []
  rw [hflat]
  simp [most_common]

/-- Claim C8 witness: `empty_producer_ranking` for the country `"Spain"`, which
matches no record of the one-French-record dataset. -/
theorem empty_producer_ranking_witness :
    ((∀ r ∈ C8ds, countryFlag "Spain" r = 0)
      ∨ (∀ r ∈ C8ds, countryFlag "Spain" r = 1 → r.productoras = none))
    ∧ get_top_productoras C8ds "Spain" 1 10 = [] :=
  ⟨Or.inl (by decide), empty_producer_ranking C8ds "Spain" 1 10 (Or.inl (by decide))⟩

/-- Claim C9: the producer normalizer prefers `productoras_normalizadas` when
it is present (even when both source columns exist), falls back to
`productoras_consolidadas`, is total (no error) when neither exists, and the
producer view then reports the missing column instead of failing. -/
theorem producer_column_preference (v w : List (Option String))
    (rows : List Record) (c : String) :
    productoras_consolidadas_normalized ⟨some v, some w⟩ = some v
    ∧ productoras_consolidadas_normalized ⟨some v, none⟩ = some v
    ∧ productoras_consolidadas_normalized ⟨none, some w⟩ = some w
    ∧ productoras_consolidadas_normalized ⟨none, none⟩ = none
    ∧ tab3 false rows c = Tab3Outcome.noColumnWarning :=
  ⟨rfl, rfl, rfl, rfl, rfl⟩

lemma splitCommaAux_chars {l acc : List Char}
    (hl : ∀ c ∈ l, isPySpace c ∨ c = ',') (hacc : ∀ c ∈ acc, isPySpace c) :
    ∀ t ∈ splitCommaAux l acc, ∀ c ∈ t, isPySpace c := by
  induction l generalizing acc with
  | nil =>
    intro t ht c hc
    simp only [splitCommaAux, List.mem_singleton] at ht
    subst ht
    exact hacc c (List.mem_reverse.mp hc)
  | cons a as ih =>
    intro t ht c hc
    by_cases ha : a = ','
    · simp only [splitCommaAux, if_pos ha] at ht
      rcases List.mem_cons.mp ht with rfl | ht
      · exact hacc c (List.mem_reverse.mp hc)
      · exact ih (fun x hx => hl x (List.mem_cons_of_mem _ hx))
          (by intro x hx; exact absurd hx (List.not_mem_nil x)) t ht c hc
    · simp only [splitCommaAux, if_neg ha] at ht
      refine ih (fun x hx => hl x (List.mem_cons_of_mem _ hx)) ?_ t ht c hc
      intro x hx
      rcases List.mem_cons.mp hx with rfl | hx
      · rcases hl x (List.mem_cons_self _ _) with h | h
        · exact h
        · exact absurd h ha
      · exact hacc x hx

lemma blankish_parse_nil {s : String} (hb : blankish s = true) :
    get_countries_from_string (some s) = [] := by
  have hchars : ∀ c ∈ s.data, isPySpace c ∨ c = ',' := by
    intro c hc
    have := (List.all_eq_true.mp hb) c hc
    rcases Bool.or_eq_true_iff.mp this with h | h
    · exact Or.inl h
    · exact Or.inr (of_decide_eq_true h)
  rw [get_countries_some]
  by_cases hblank : trimChars s.data = []
  · rw [if_pos hblank]
  · rw [if_neg hblank]
    have htok : ∀ t ∈ splitComma s.data, trimChars t = [] := by
      intro t ht
      apply trimChars_eq_nil_iff.mpr
      intro c hc
      exact splitCommaAux_chars hchars
        (by intro x hx; exact absurd hx (List.not_mem_nil x)) t ht c hc
    have hfil : (splitComma s.data).filter (fun c => decide (trimChars c ≠ [])) = [] := by
      rw [List.filter_eq_nil_iff]
      intro t ht
      simp [htok t ht]
    rw [hfil]
    rfl

/-- Claim C10: a record whose countries field is a non-empty string of only
whitespace and commas parses to the empty country list and has
`num_countries = 0`, yet its `has_country_data` flag is true, so it belongs to
the rows over which the line-262 per-year co-production mean is taken,
contributing zero countries. -/
theorem whitespace_field_included_in_mean (ds : List Record) (r : Record)
    (s : String) (hmem : r ∈ ds) (hc : r.countries = some s) (hne : s ≠ "")
    (hb : blankish s = true) :
    get_countries_from_string r.countries = []
    ∧ num_countries r = 0
    ∧ has_country_data r = true
    ∧ r ∈ coprodMeanRows ds r.year := by
  have hparse : get_countries_from_string r.countries = [] := by
    rw [hc]
    exact blankish_parse_nil hb
  have hnum : num_countries r = 0 := by
    unfold num_countries
    rw [hc]
    show (get_countries_from_string (some s)).length = 0
    rw [← hc, hparse]
    rfl
  have hdata : has_country_data r = true := by
    unfold has_country_data
    rw [hc]
    exact decide_eq_true hne
  refine ⟨hparse, hnum, hdata, ?_⟩
  unfold coprodMeanRows
  apply List.mem_filter.mpr
  refine ⟨List.mem_filter.mpr ⟨hmem, hdata⟩, ?_⟩
  exact decide_eq_true rfl

/-- Claim C10 witness: `whitespace_field_included_in_mean` on the record whose
countries field is the string of a space, a comma and a space. -/
theorem whitespace_field_included_in_mean_witness :
    (blankRecord ∈ C10ds ∧ blankRecord.countries = some " , "
      ∧ " , " ≠ "" ∧ blankish " , " = true)
    ∧ (get_countries_from_string blankRecord.countries = []
      ∧ num_countries blankRecord = 0
      ∧ has_country_data blankRecord = true
      ∧ blankRecord ∈ coprodMeanRows C10ds blankRecord.year) :=
  ⟨⟨by decide, rfl, by decide, by decide⟩,
    whitespace_field_included_in_mean C10ds blankRecord " , "
      (by decide) rfl (by decide) (by decide)⟩

end Cannes
